import Mathlib

/-!
AudioFilterIRCabsim_F32 — stereo IR cabinet simulator (filter_ir_cabsim_F32.h)

Shallow embedding of the class declared in `src/filter_ir_cabsim_F32.h`:
its compile-time constants, its data members (with their in-class
initialisers), the inline control methods `doubler_set`, `doubler_tgl`,
and the inline accessors `ir_get`, `ir_get_len_ms`, `doubler_get`,
`init_done`. The constructor, `update`, `ir_register` and `ir_load` are only
declared in the header; they and the delay line of `basic_delay.h` are
modelled from the specification and marked as such.

Conventions
* A `float32_t` value is represented by the rational it denotes; a decimal
  literal of the source (`0.3f`) is written with the same decimal expansion.
  Such values are only stored, copied and compared. Single-precision
  arithmetic is never done with the operations of `ℚ`: where a method
  computes, it goes through `Float32Ops`, the rounding arithmetic of the
  target, which is a parameter.
* `uint8_t` is `Fin 256`.
* A C array `T a[n]` is a `CArray n`: a list together with the proof that it
  has exactly `n` elements.
* A pointer `const float32_t *` to impulse-response data is an
  `Option ImpulseResponse`; `NULL` is `none`.
* A method `R m(args)` is a function from the object state to the pair
  (returned value, state after the call); a `void` method returns the state.
* `__disable_irq()` / `__enable_irq()` bracket the body of the control
  methods; the body is therefore one atomic step, which is what a function
  on states describes.
* `AUDIO_BLOCK_SAMPLES` comes from the host audio library (`AudioStream.h`)
  and is a parameter of the embedding.
-/

namespace CabSim

/-! ## Scalar types and fixed-size arrays -/

/-- Single-precision value, represented by the rational it denotes. Values of
this type are stored, copied and compared; arithmetic on them goes through
`Float32Ops`. -/
abbrev float32_t := ℚ

/-- The single-precision arithmetic of the target that `ir_load` uses:
conversion of an unsigned integer, division and multiplication. Each is a
rounding operation of the floating-point unit, so it is a parameter and not
the exact operation of `ℚ`. -/
structure Float32Ops where
  ofUInt : Nat → float32_t
  div : float32_t → float32_t → float32_t
  mul : float32_t → float32_t → float32_t

/-- Unsigned 8-bit integer. -/
abbrev uint8_t := Fin 256

/-- C array of `n` samples. -/
structure CArray (n : Nat) where
  data : List float32_t
  size_eq : data.length = n

/-- The array of `n` zeros. -/
def CArray.zero (n : Nat) : CArray n := ⟨List.replicate n 0, List.length_replicate n 0⟩

/-- Number of elements stored in the array. -/
def CArray.size {n : Nat} (a : CArray n) : Nat := a.data.length

/-! ## Compile-time constants (lines 39–43) -/

/-- `#define IR_BUFFER_SIZE  128` -/
def IR_BUFFER_SIZE : Nat := 128

/-- `#define IR_NFORMAX      (2048 / IR_BUFFER_SIZE)` -/
def IR_NFORMAX : Nat := 2048 / IR_BUFFER_SIZE

/-- `#define IR_FFT_LENGTH   (2 * IR_BUFFER_SIZE)` -/
def IR_FFT_LENGTH : Nat := 2 * IR_BUFFER_SIZE

/-- `#define IR_N_B          (1)` -/
def IR_N_B : Nat := 1

/-- `#define IR_MAX_REG_NUM  11`, the max number of registered IRs. -/
def IR_MAX_REG_NUM : Nat := 11

/-- `static const uint8_t nfir = 30;` (fir taps). -/
def nfir : Nat := 30

/-- `static constexpr float32_t doubler_gainL = 0.55f;` -/
def doubler_gainL : float32_t := 0.55

/-- `static constexpr float32_t doubler_gainR = 0.65f;` -/
def doubler_gainR : float32_t := 0.65

/-! ## Decorrelation filter coefficients (lines 137–160) -/

/-- `float32_t FIRk_preL[30]` -/
def FIRk_preL : List float32_t := [
   0.000894872763,  0.00020902598,  0.000285242248,  0.000503875781,  0.00207542209,  0.0013392308,
  -0.00476867426,  -0.0112718018,  -0.00560652791,   0.0158470348,    0.0319586769,   0.0108086104,
  -0.0470990688,   -0.0834295526,  -0.0208595414,    0.154734746,     0.35352844,     0.441179603,
   0.35352844,      0.154734746,   -0.0208595414,   -0.0834295526,   -0.0470990688,   0.0108086104,
   0.0319586769,    0.0158470348,  -0.00560652791,  -0.0112718018,   -0.00476867426,  0.0013392308 ]

/-- `float32_t FIRk_preR[30]` -/
def FIRk_preR : List float32_t := [
   0.00020902598,   0.000285242248, 0.000503875781,  0.00207542209,   0.0013392308,  -0.00476867426,
  -0.0112718018,   -0.00560652791,  0.0158470348,    0.0319586769,    0.0108086104,  -0.0470990688,
  -0.0834295526,   -0.0208595414,   0.154734746,     0.35352844,      0.441179603,    0.35352844,
   0.154734746,    -0.0208595414,  -0.0834295526,   -0.0470990688,    0.0108086104,   0.0319586769,
   0.0158470348,   -0.00560652791, -0.0112718018,   -0.00476867426,   0.0013392308,   0.00207542209 ]

/-- `float32_t FIRk_postL[30]` -/
def FIRk_postL : List float32_t := [
   0.000285242248,  0.000503875781, 0.00207542209,   0.0013392308,   -0.00476867426, -0.0112718018,
  -0.00560652791,   0.0158470348,   0.0319586769,    0.0108086104,   -0.0470990688,  -0.0834295526,
  -0.0208595414,    0.154734746,    0.35352844,      0.441179603,     0.35352844,     0.154734746,
  -0.0208595414,   -0.0834295526,  -0.0470990688,    0.0108086104,    0.0319586769,   0.0158470348,
  -0.00560652791,  -0.0112718018,  -0.00476867426,   0.0013392308,    0.00207542209,  0.000503875781 ]

/-- `float32_t FIRk_postR[30]` -/
def FIRk_postR : List float32_t := [
   0.000503875781,  0.00207542209,  0.0013392308,   -0.00476867426,  -0.0112718018,  -0.00560652791,
   0.0158470348,    0.0319586769,   0.0108086104,   -0.0470990688,   -0.0834295526,  -0.0208595414,
   0.154734746,     0.35352844,     0.441179603,     0.35352844,      0.154734746,   -0.0208595414,
  -0.0834295526,   -0.0470990688,   0.0108086104,    0.0319586769,    0.0158470348,  -0.00560652791,
  -0.0112718018,   -0.00476867426,  0.0013392308,    0.00207542209,   0.000503875781, 0.0 ]

/-! ## Collaborators that are not part of the header -/

/-- Impulse-response data behind a `const float32_t *`: the raw sample
sequence. -/
abbrev ImpulseResponse := List float32_t

/-- Modelled from the spec: the class `AudioBasicDelay` of `basic_delay.h`,
which is not among the sources. The spec describes it as a fixed-capacity
circular sample buffer with read/write cursors and the operations
write-then-advance, read-at-fixed-offset and `reset()`. -/
structure AudioBasicDelay where
  bf : List float32_t
  wr_idx : Nat
  rd_idx : Nat
deriving DecidableEq

/-- Modelled from the spec: `AudioBasicDelay::reset()` of `basic_delay.h`
(not among the sources): "zero contents, reset cursors". The capacity is
fixed, so the buffer keeps its length. -/
def AudioBasicDelay.reset (d : AudioBasicDelay) : AudioBasicDelay :=
  { bf := List.replicate d.bf.length 0, wr_idx := 0, rd_idx := 0 }

/-- Modelled from the spec: the allocation of the delay line
(`basic_delay.h`, not among the sources): a "fixed-capacity circular sample
buffer sized for the configured delay", allocated once at construction, with
zero contents and the cursors at the start. -/
def AudioBasicDelay.init (size_samples : Nat) : AudioBasicDelay :=
  { bf := List.replicate size_samples 0, wr_idx := 0, rd_idx := 0 }

/-- Modelled from the spec: the write operation of `AudioBasicDelay`
(`basic_delay.h`, not among the sources): "write-then-advance" on a circular
buffer; the read cursor keeps its fixed offset to the write cursor. -/
def AudioBasicDelay.write (d : AudioBasicDelay) (x : float32_t) : AudioBasicDelay :=
  { bf := d.bf.set d.wr_idx x,
    wr_idx := (d.wr_idx + 1) % d.bf.length,
    rd_idx := (d.rd_idx + 1) % d.bf.length }

/-- The ten impulse responses compiled in by `filter_ir_cabsim_irs.h` (opaque
data, not among the sources), named as in the initialiser of `irPtrTable`. -/
structure CabsimIRs where
  ir_1_guitar : ImpulseResponse
  ir_2_guitar : ImpulseResponse
  ir_3_guitar : ImpulseResponse
  ir_4_guitar : ImpulseResponse
  ir_10_guitar : ImpulseResponse
  ir_11_guitar : ImpulseResponse
  ir_6_guitar : ImpulseResponse
  ir_7_bass : ImpulseResponse
  ir_8_bass : ImpulseResponse
  ir_9_bass : ImpulseResponse

/-! ## The object state (lines 82–136) -/

/-- Data members of `class AudioFilterIRCabsim_F32`, with the in-class
initialisers of the header as default values. Raw scratch pointers, the FFT
instance pointers and the FIR instance handles carry no state of their own and
are left out. `block_size` is a `uint16_t`, hence the reduction modulo
`2^16` of its initialiser. -/
structure AudioFilterIRCabsim_F32 (AUDIO_BLOCK_SAMPLES : Nat) where
  block_size : Nat := AUDIO_BLOCK_SAMPLES % 65536
  audio_gain : float32_t := 0.3
  idx_t : Int := 0
  first_block : uint8_t := 1
  ir_loaded : uint8_t := 0
  ir_idx : uint8_t := 0xFF
  nfor : Nat := 0
  buffidx : Int := 0
  k : Int := 0
  fmask : Fin IR_NFORMAX → CArray (IR_FFT_LENGTH * 2)
  ac2 : CArray 512
  accum : CArray (IR_FFT_LENGTH * 2)
  fftin : CArray (IR_FFT_LENGTH * 2)
  N_BLOCKS : Nat := IR_N_B
  delay : AudioBasicDelay
  ir_length_ms : float32_t := 0
  irPtrTable : Fin IR_MAX_REG_NUM → Option ImpulseResponse
  initialized : Bool := false
  doubleTrack : Bool := false
  FIRstate : Fin 4 → CArray (AUDIO_BLOCK_SAMPLES + nfir)

/-- The initialiser of `irPtrTable` (lines 123–126): the default IR table,
with `NULL` for bypass in the last slot. -/
def defaultIrPtrTable (irs : CabsimIRs) : Fin IR_MAX_REG_NUM → Option ImpulseResponse :=
  ![some irs.ir_1_guitar, some irs.ir_2_guitar, some irs.ir_3_guitar, some irs.ir_4_guitar,
    some irs.ir_10_guitar, some irs.ir_11_guitar, some irs.ir_6_guitar, some irs.ir_7_bass,
    some irs.ir_8_bass, some irs.ir_9_bass, none]

/-- Modelled from the spec: the constructor `AudioFilterIRCabsim_F32()` is
declared on line 49 and defined in the .cpp file, which is not among the
sources. Every member that has an in-class initialiser in the header starts
from it. Spec 3: "all buffers are fixed-capacity, allocated once at
construction", so the delay line is allocated with its capacity `delay_l`
(line 118, a value derived from the host's sample rate) and the arrays, which
have no initialiser, hold what the storage holds (`fmask0`, `ac20`, `accum0`,
`fftin0`, `FIRstate0`). Spec 3 and 6: no IR is loaded, "`ir_length_ms` ... 0
when none loaded", and the readiness flag is "true once initial construction
... has completed". -/
def construct (B : Nat) (irs : CabsimIRs)
    (fmask0 : Fin IR_NFORMAX → CArray (IR_FFT_LENGTH * 2)) (ac20 : CArray 512)
    (accum0 fftin0 : CArray (IR_FFT_LENGTH * 2)) (delay_l : Nat)
    (FIRstate0 : Fin 4 → CArray (B + nfir)) : AudioFilterIRCabsim_F32 B :=
  { fmask := fmask0, ac2 := ac20, accum := accum0, fftin := fftin0,
    delay := AudioBasicDelay.init delay_l,
    ir_loaded := 0, ir_length_ms := 0,
    irPtrTable := defaultIrPtrTable irs, FIRstate := FIRstate0,
    initialized := true }

/-! ## Inline methods (lines 53–80) -/

variable {B : Nat}

/-- `uint8_t ir_get(void) {return ir_idx;}` -/
def ir_get (s : AudioFilterIRCabsim_F32 B) : uint8_t × AudioFilterIRCabsim_F32 B :=
  (s.ir_idx, s)

/-- `float32_t ir_get_len_ms(void) { return ir_length_ms; }` -/
def ir_get_len_ms (s : AudioFilterIRCabsim_F32 B) : float32_t × AudioFilterIRCabsim_F32 B :=
  (s.ir_length_ms, s)

/-- `void doubler_set(bool s)`: store the flag, then reset the delay line if
the stored flag is set. -/
def doubler_set (self : AudioFilterIRCabsim_F32 B) (s : Bool) : AudioFilterIRCabsim_F32 B :=
  let self1 := { self with doubleTrack := s }
  if self1.doubleTrack then { self1 with delay := self1.delay.reset } else self1

/-- `bool doubler_tgl()`: flip the flag, reset the delay line if the new flag
is set, return the new flag. -/
def doubler_tgl (self : AudioFilterIRCabsim_F32 B) : Bool × AudioFilterIRCabsim_F32 B :=
  let self1 := { self with doubleTrack := if self.doubleTrack then false else true }
  let self2 := if self1.doubleTrack then { self1 with delay := self1.delay.reset } else self1
  (self2.doubleTrack, self2)

/-- `bool doubler_get() {return doubleTrack;}` -/
def doubler_get (s : AudioFilterIRCabsim_F32 B) : Bool × AudioFilterIRCabsim_F32 B :=
  (s.doubleTrack, s)

/-- `bool init_done() {return initialized;}` -/
def init_done (s : AudioFilterIRCabsim_F32 B) : Bool × AudioFilterIRCabsim_F32 B :=
  (s.initialized, s)

/-! ## Methods declared in the header and defined in the .cpp file -/

/-- One real sample as an interleaved complex value: the sample, then a zero
imaginary part. -/
def interleaveComplex : List float32_t → List float32_t
  | [] => []
  | r :: rs => r :: 0 :: interleaveComplex rs

/-- The `i`-th `IR_BUFFER_SIZE`-sample segment of an impulse response,
zero-padded to the transform length. -/
def irSegment (ir : ImpulseResponse) (i : Nat) : List float32_t :=
  let seg := (ir.drop (i * IR_BUFFER_SIZE)).take IR_BUFFER_SIZE
  seg ++ List.replicate (IR_FFT_LENGTH - seg.length) 0

/-- Modelled from the spec: `ir_register` is declared on line 51 and defined in
the .cpp file, which is not among the sources. Spec 4.1: "stores a reference
to externally supplied IR sample data at `slot` in a fixed-size table
(`IR_MAX_REG_NUM` entries ...). Rejects (no-op, previous table entry retained)
if `slot` is out of range." -/
def ir_register (self : AudioFilterIRCabsim_F32 B) (irPtr : Option ImpulseResponse)
    (position : uint8_t) : AudioFilterIRCabsim_F32 B :=
  if h : position.val < IR_MAX_REG_NUM then
    { self with irPtrTable := Function.update self.irPtrTable ⟨position.val, h⟩ irPtr }
  else self

/-- Modelled from the spec: `ir_load` is declared on line 52 and defined in the
.cpp file, which is not among the sources. Spec 4.1 and 7: an out-of-range
index is ignored; a bypass (null) entry gives `ir_length_ms = 0` and builds no
partitions; otherwise `nfor = ceil(irLength / blockSize)` clamped to `nforMax`,
each partition is the zero-padded segment after a forward transform, and
`ir_length_ms = irLengthSamples / sampleRate × 1000`, computed in the
single-precision arithmetic `F` of the target. The forward transform
(`arm_cfft_f32` of the CMSIS library), the arithmetic `F` and the sample rate
(`AUDIO_SAMPLE_RATE` of the host library) are parameters. -/
def ir_load (cfft : List float32_t → CArray (IR_FFT_LENGTH * 2)) (F : Float32Ops)
    (sampleRate : float32_t)
    (self : AudioFilterIRCabsim_F32 B) (idx : uint8_t) : AudioFilterIRCabsim_F32 B :=
  if h : idx.val < IR_MAX_REG_NUM then
    match self.irPtrTable ⟨idx.val, h⟩ with
    | none => { self with ir_idx := idx, ir_loaded := 0, ir_length_ms := 0 }
    | some ir =>
      let nfor := min ((ir.length + IR_BUFFER_SIZE - 1) / IR_BUFFER_SIZE) IR_NFORMAX
      { self with
        ir_idx := idx
        ir_loaded := 1
        nfor := nfor
        fmask := fun i =>
          if i.val < nfor then cfft (interleaveComplex (irSegment ir i.val)) else self.fmask i
        ir_length_ms := F.mul (F.div (F.ofUInt ir.length) sampleRate) 1000 }
  else self

/-! ## Block processing -/

/-- One stereo pair of sample blocks, as the host supplies and receives it
once per processing cycle. -/
abbrev StereoBlock (B : Nat) := CArray B × CArray B

/-- The working storage of the convolution path inside the object: the
first-block flag, the cursors, the accumulator and the transform scratch. -/
structure ConvWork where
  first_block : uint8_t
  idx_t : Int
  buffidx : Int
  k : Int
  ac2 : CArray 512
  accum : CArray (IR_FFT_LENGTH * 2)
  fftin : CArray (IR_FFT_LENGTH * 2)

/-- The working storage of the convolution path as held by the object. -/
def convWork (self : AudioFilterIRCabsim_F32 B) : ConvWork :=
  { first_block := self.first_block, idx_t := self.idx_t, buffidx := self.buffidx,
    k := self.k, ac2 := self.ac2, accum := self.accum, fftin := self.fftin }

/-- Store the working storage of the convolution path back into the object. -/
def putConvWork (self : AudioFilterIRCabsim_F32 B) (w : ConvWork) : AudioFilterIRCabsim_F32 B :=
  { self with first_block := w.first_block, idx_t := w.idx_t, buffidx := w.buffidx,
              k := w.k, ac2 := w.ac2, accum := w.accum, fftin := w.fftin }

/-- The numerical content of the two stages of `update`, which the CMSIS
library and the .cpp file supply: a parameter. `H` is the storage behind the
scratch pointers of the header (`fftout`, `maskgen`, `last_sample_buffer_L`,
`last_sample_buffer_R`), among it the input history.

* `convolve ir_loaded nfor fmask audio_gain hist work input` is the
  partitioned convolution of spec 4.2, the bypass fallback included: it reads
  whether an IR is loaded, the partition set and the output gain, works on the
  input history and on its working storage, and returns the convolved block.
* `enhance FIRstate delay block` is the double-tracking enhancer of spec 4.3:
  it owns the four FIR state buffers and the delay line. -/
structure BlockProcessing (B : Nat) (H : Type) where
  convolve : uint8_t → Nat → (Fin IR_NFORMAX → CArray (IR_FFT_LENGTH * 2)) → float32_t →
    H → ConvWork → StereoBlock B → StereoBlock B × H × ConvWork
  enhance : (Fin 4 → CArray (B + nfir)) → AudioBasicDelay → StereoBlock B →
    StereoBlock B × (Fin 4 → CArray (B + nfir)) × AudioBasicDelay

/-- Modelled from the spec: `update` is declared on line 50 and defined in the
.cpp file, which is not among the sources. Spec 2: "each processing cycle, the
host supplies one stereo input block; the engine runs convolution ..., then if
enhancement is enabled the enhancer post-processes the convolved signal before
it is returned to the host." Spec 3: the double-track state is the "enable
flag, four independent FIR filter delay-state buffers ... and ownership of the
shared Delay Line instance". Returns the output block, the storage behind the
scratch pointers and the object after the call. -/
def update {H : Type} (P : BlockProcessing B H) (self : AudioFilterIRCabsim_F32 B) (hist : H)
    (input : StereoBlock B) : StereoBlock B × H × AudioFilterIRCabsim_F32 B :=
  let c := P.convolve self.ir_loaded self.nfor self.fmask self.audio_gain hist
    (convWork self) input
  let self1 := putConvWork self c.2.2
  if self1.doubleTrack then
    let e := P.enhance self1.FIRstate self1.delay c.1
    (e.1, c.2.1, { self1 with FIRstate := e.2.1, delay := e.2.2 })
  else (c.1, c.2.1, self1)

/-- One call of a public method of the class (header lines 50–80). -/
inductive Call (B : Nat) where
  | update (input : StereoBlock B)
  | ir_register (irPtr : Option ImpulseResponse) (position : uint8_t)
  | ir_load (idx : uint8_t)
  | ir_get
  | ir_get_len_ms
  | doubler_set (s : Bool)
  | doubler_tgl
  | doubler_get
  | init_done

/-- What a call gives back to its caller: the output block of `update`, the
value a method returns, or nothing for a `void` method. -/
inductive Output (B : Nat) where
  | block (out : StereoBlock B)
  | void
  | byte (v : uint8_t)
  | float (v : float32_t)
  | bool (v : Bool)

/-- Perform one call on the object `st.1` with the storage `st.2` behind its
scratch pointers. -/
def step {H : Type} (P : BlockProcessing B H)
    (cfft : List float32_t → CArray (IR_FFT_LENGTH * 2)) (F : Float32Ops)
    (sampleRate : float32_t) (st : AudioFilterIRCabsim_F32 B × H) :
    Call B → Output B × (AudioFilterIRCabsim_F32 B × H)
  | .update input =>
    let r := update P st.1 st.2 input
    (.block r.1, (r.2.2, r.2.1))
  | .ir_register irPtr position => (.void, (ir_register st.1 irPtr position, st.2))
  | .ir_load idx => (.void, (ir_load cfft F sampleRate st.1 idx, st.2))
  | .ir_get => (.byte (ir_get st.1).1, ((ir_get st.1).2, st.2))
  | .ir_get_len_ms => (.float (ir_get_len_ms st.1).1, ((ir_get_len_ms st.1).2, st.2))
  | .doubler_set s => (.void, (doubler_set st.1 s, st.2))
  | .doubler_tgl => (.bool (doubler_tgl st.1).1, ((doubler_tgl st.1).2, st.2))
  | .doubler_get => (.bool (doubler_get st.1).1, ((doubler_get st.1).2, st.2))
  | .init_done => (.bool (init_done st.1).1, ((init_done st.1).2, st.2))

/-- Perform a sequence of calls; the outputs in order, and the final state. -/
def run {H : Type} (P : BlockProcessing B H)
    (cfft : List float32_t → CArray (IR_FFT_LENGTH * 2)) (F : Float32Ops)
    (sampleRate : float32_t) :
    AudioFilterIRCabsim_F32 B × H → List (Call B) →
      List (Output B) × (AudioFilterIRCabsim_F32 B × H)
  | st, [] => ([], st)
  | st, c :: cs =>
    let r := step P cfft F sampleRate st c
    let rs := run P cfft F sampleRate r.2 cs
    (r.1 :: rs.1, rs.2)

/-- Two objects that are the same or differ only in the delay line while the
double-tracker is disabled, with delay lines that reset to the same one. -/
def SameUpToIdleDelay (s t : AudioFilterIRCabsim_F32 B) : Prop :=
  s = t ∨ (s.doubleTrack = false ∧
    ∃ d : AudioBasicDelay, t = { s with delay := d } ∧ d.reset = s.delay.reset)

/-! ## Concrete objects used as test inputs -/

/-- Compiled-in IR data standing in for `filter_ir_cabsim_irs.h`: ten
one-sample impulse responses. -/
def unitIRs : CabsimIRs :=
  { ir_1_guitar := [1], ir_2_guitar := [1], ir_3_guitar := [1], ir_4_guitar := [1],
    ir_10_guitar := [1], ir_11_guitar := [1], ir_6_guitar := [1], ir_7_bass := [1],
    ir_8_bass := [1], ir_9_bass := [1] }

/-- A delay line of four samples, all zero, cursors at the start. -/
def emptyDelay : AudioBasicDelay := AudioBasicDelay.init 4

/-- The same delay line after the sample `0.5` has been written to it. -/
def staleDelay : AudioBasicDelay := emptyDelay.write 0.5

/-- A freshly constructed object for `AUDIO_BLOCK_SAMPLES = 128`, with zeroed
storage. -/
def freshObject : AudioFilterIRCabsim_F32 128 :=
  construct 128 unitIRs (fun _ => CArray.zero _) (CArray.zero _) (CArray.zero _)
    (CArray.zero _) 4 (fun _ => CArray.zero _)

/-- The fresh object after `doubler_set(true)` and one sample written to the
delay line while the double-tracker was enabled. -/
def enabledObject : AudioFilterIRCabsim_F32 128 :=
  { doubler_set freshObject true with
    delay := (doubler_set freshObject true).delay.write 0.5 }

/-- An object whose double-tracker is disabled while its delay line still
holds a sample written during an earlier enabled period. -/
def staleObject : AudioFilterIRCabsim_F32 128 :=
  { freshObject with delay := staleDelay }

/-- A stand-in for the forward transform: it ignores its input and returns
the zero spectrum. Used only to feed concrete inputs to `ir_load`. -/
def zeroTransform : List float32_t → CArray (IR_FFT_LENGTH * 2) := fun _ => CArray.zero _

/-- Arithmetic for concrete inputs whose exact results are single-precision
numbers: on such inputs a correctly rounded operation returns the exact
result, which is what these operations return. -/
def exactOps : Float32Ops :=
  { ofUInt := fun n => (n : ℚ), div := fun a b => a / b, mul := fun a b => a * b }

/-- An impulse response of 375 samples: a unit impulse followed by zeros. At
48000 Hz it lasts `375 / 48000 = 2^-7` s, that is 7.8125 ms; both numbers are
single-precision numbers. -/
def ir375 : ImpulseResponse := 1 :: List.replicate 374 0

/-- The fresh object after `ir_register(ir375, 10)`: every slot of the table
holds an impulse response, none the bypass entry. -/
def fullTableObject : AudioFilterIRCabsim_F32 128 :=
  ir_register freshObject (some ir375) 10

/-- Stages for concrete inputs: the convolution passes the block through;
the enhancer reads the delay line (it swaps the channels when the sample at
the head of the delay line is not zero) and writes to it. -/
def swapProcessing : BlockProcessing 128 Unit :=
  { convolve := fun _ _ _ _ hist work input => (input, hist, work),
    enhance := fun fs d blk =>
      (if d.bf.headD 0 = 0 then blk else (blk.2, blk.1), fs, d.write (blk.1.data.headD 0)) }

/-- A stereo block: a unit impulse on the left, silence on the right. -/
def impulseBlock : StereoBlock 128 :=
  (⟨1 :: List.replicate 127 0, by simp only [List.length_cons, List.length_replicate]⟩,
   CArray.zero 128)

/-- A sequence of calls that processes blocks with the double-tracker off,
switches it on by a toggle, processes again, and queries the object. -/
def sampleCalls : List (Call 128) :=
  [.update impulseBlock, .doubler_get, .doubler_tgl, .update impulseBlock, .ir_load 0,
   .ir_get_len_ms, .update impulseBlock, .doubler_set false, .update impulseBlock]

/-! ## Helper facts -/

theorem staleDelay_eq : staleDelay = { bf := [0.5, 0, 0, 0], wr_idx := 1, rd_idx := 1 } := by
  simp [staleDelay, emptyDelay, AudioBasicDelay.init, AudioBasicDelay.write, List.replicate]

theorem staleDelay_reset_ne : staleDelay.reset ≠ staleDelay := by
  simp [staleDelay, emptyDelay, AudioBasicDelay.init, AudioBasicDelay.write,
    AudioBasicDelay.reset]

theorem emptyDelay_reset_eq : emptyDelay.reset = emptyDelay := by
  simp [emptyDelay, AudioBasicDelay.init, AudioBasicDelay.reset]

/-- The enhancer stage of `swapProcessing` does observe the contents of the
delay line: on the stale delay line it swaps the channels of the impulse
block, on the reset one it does not. That the outputs nevertheless agree after
enabling then disabling rests on the reset that every enabling call performs. -/
theorem swapProcessing_reads_delay (fs : Fin 4 → CArray (128 + nfir)) :
    (swapProcessing.enhance fs staleDelay impulseBlock).1 = (impulseBlock.2, impulseBlock.1) ∧
    (swapProcessing.enhance fs staleDelay.reset impulseBlock).1 = impulseBlock ∧
    (impulseBlock.2, impulseBlock.1) ≠ impulseBlock := by
  refine ⟨?_, ?_, ?_⟩
  · simp [swapProcessing, staleDelay, emptyDelay, AudioBasicDelay.init, AudioBasicDelay.write,
      List.replicate]
    intro h0
    norm_num at h0
  · simp [swapProcessing, staleDelay, emptyDelay, AudioBasicDelay.init, AudioBasicDelay.write,
      AudioBasicDelay.reset, List.replicate]
  · intro h
    have h1 := congrArg (fun b : StereoBlock 128 => b.1.data.headD 0) h
    simp [impulseBlock, CArray.zero, List.replicate] at h1

/-- The state `staleObject` is what `doubler_set(false)` leaves behind when the
double-tracker is switched off after a sample has gone through the delay
line. -/
theorem staleObject_reachable : doubler_set enabledObject false = staleObject := by
  rfl

/-! ## The double-tracker control methods -/

/-- C1: for every object state and every boolean `s`, `doubler_get()` after
`doubler_set(s)` returns `s`; after `doubler_set(true)` the delay line is the
reset one (contents all zero, same capacity, both cursors at zero), whatever
the flag was before; after `doubler_set(false)` the delay line is exactly as it
was. -/
theorem doubler_set_then_get (self : AudioFilterIRCabsim_F32 B) (s : Bool) :
    (doubler_get (doubler_set self s)).1 = s ∧
    (doubler_set self s).delay = (if s then self.delay.reset else self.delay) ∧
    (doubler_set self true).delay = self.delay.reset ∧
    (doubler_set self true).delay.bf = List.replicate self.delay.bf.length 0 ∧
    (doubler_set self true).delay.wr_idx = 0 ∧
    (doubler_set self true).delay.rd_idx = 0 ∧
    (doubler_set self false).delay = self.delay := by
  refine ⟨?_, ?_, rfl, rfl, rfl, rfl, rfl⟩
  · cases s <;> rfl
  · cases s <;> rfl

/-- C2: `doubler_tgl()` returns the negation of the flag held before the call;
`doubler_get()` afterwards reports the returned value; the delay line is reset
when the flag was disabled before the call and untouched when it was enabled;
two consecutive toggles restore the flag, and exactly one of the two calls is
the resetting one (the first if the flag was disabled, the second if it was
enabled), so that the delay line ends as the reset of the original one. -/
theorem doubler_tgl_spec (self : AudioFilterIRCabsim_F32 B) :
    (doubler_tgl self).1 = !self.doubleTrack ∧
    (doubler_get (doubler_tgl self).2).1 = (doubler_tgl self).1 ∧
    (doubler_tgl self).2.delay
      = (if self.doubleTrack then self.delay else self.delay.reset) ∧
    (doubler_tgl (doubler_tgl self).2).2.doubleTrack = self.doubleTrack ∧
    (doubler_tgl (doubler_tgl self).2).2.delay = self.delay.reset ∧
    ((self.doubleTrack = false ∧ (doubler_tgl self).2.doubleTrack = true ∧
        (doubler_tgl self).2.delay = self.delay.reset ∧
        (doubler_tgl (doubler_tgl self).2).2.delay = (doubler_tgl self).2.delay) ∨
     (self.doubleTrack = true ∧ (doubler_tgl self).2.doubleTrack = false ∧
        (doubler_tgl self).2.delay = self.delay ∧
        (doubler_tgl (doubler_tgl self).2).2.delay = (doubler_tgl self).2.delay.reset)) := by
  cases h : self.doubleTrack <;> simp [doubler_tgl, doubler_get, h]

/-- C3, the claim as stated fails in its last clause: in `staleObject` the
double-tracker is disabled and the delay line holds a sample of an earlier
enabled period; `doubler_set(true)` followed by `doubler_set(false)` zeroes the
delay line, so the resulting state is not equal to the original one. -/
theorem enable_disable_not_identity :
    staleObject.doubleTrack = false ∧
    doubler_set (doubler_set staleObject true) false ≠ staleObject := by
  refine ⟨rfl, fun h => staleDelay_reset_ne ?_⟩
  exact congrArg AudioFilterIRCabsim_F32.delay h

/-- Resetting a reset delay line changes nothing. -/
theorem reset_reset (d : AudioBasicDelay) : d.reset.reset = d.reset := by
  simp [AudioBasicDelay.reset]

/-- One call keeps two objects that differ only in an idle delay line in step:
the call gives the same output on both, leaves the same storage behind the
scratch pointers, and the two objects after the call again are the same or
differ only in an idle delay line. -/
theorem step_sameUpToIdleDelay {H : Type} (P : BlockProcessing B H)
    (cfft : List float32_t → CArray (IR_FFT_LENGTH * 2)) (F : Float32Ops)
    (sampleRate : float32_t) (hist : H) (c : Call B)
    (s t : AudioFilterIRCabsim_F32 B) (hst : SameUpToIdleDelay s t) :
    (step P cfft F sampleRate (s, hist) c).1 = (step P cfft F sampleRate (t, hist) c).1 ∧
    (step P cfft F sampleRate (s, hist) c).2.2 = (step P cfft F sampleRate (t, hist) c).2.2 ∧
    SameUpToIdleDelay (step P cfft F sampleRate (s, hist) c).2.1
      (step P cfft F sampleRate (t, hist) c).2.1 := by
  rcases hst with rfl | ⟨hoff, d, rfl, hd⟩
  · exact ⟨rfl, rfl, Or.inl rfl⟩
  · cases s with
    | mk block_size audio_gain idx_t first_block ir_loaded ir_idx nfor buffidx k fmask ac2
        accum fftin N_BLOCKS delay ir_length_ms irPtrTable initialized doubleTrack FIRstate =>
    simp only at hoff hd
    subst hoff
    cases c with
    | update input =>
      refine ⟨rfl, rfl, Or.inr ⟨rfl, d, rfl, hd⟩⟩
    | ir_register irPtr position =>
      refine ⟨rfl, rfl, Or.inr ?_⟩
      by_cases hp : position.val < IR_MAX_REG_NUM
      · simp only [step, ir_register, dif_pos hp]
        exact ⟨trivial, d, rfl, hd⟩
      · simp only [step, ir_register, dif_neg hp]
        exact ⟨trivial, d, rfl, hd⟩
    | ir_load idx =>
      refine ⟨rfl, rfl, Or.inr ?_⟩
      by_cases hp : idx.val < IR_MAX_REG_NUM
      · simp only [step, ir_load, dif_pos hp]
        cases irPtrTable ⟨idx.val, hp⟩ with
        | none => exact ⟨rfl, d, rfl, hd⟩
        | some ir => exact ⟨rfl, d, rfl, hd⟩
      · simp only [step, ir_load, dif_neg hp]
        exact ⟨trivial, d, rfl, hd⟩
    | ir_get => exact ⟨rfl, rfl, Or.inr ⟨rfl, d, rfl, hd⟩⟩
    | ir_get_len_ms => exact ⟨rfl, rfl, Or.inr ⟨rfl, d, rfl, hd⟩⟩
    | doubler_set b =>
      cases b with
      | false => exact ⟨rfl, rfl, Or.inr ⟨rfl, d, rfl, hd⟩⟩
      | true =>
        refine ⟨rfl, rfl, Or.inl ?_⟩
        simp only [step, doubler_set, if_true]
        rw [hd]
    | doubler_tgl =>
      refine ⟨rfl, rfl, Or.inl ?_⟩
      simp only [step, doubler_tgl, if_true, Bool.false_eq_true, if_false]
      rw [hd]
    | doubler_get => exact ⟨rfl, rfl, Or.inr ⟨rfl, d, rfl, hd⟩⟩
    | init_done => exact ⟨rfl, rfl, Or.inr ⟨rfl, d, rfl, hd⟩⟩

/-- A sequence of calls gives the same outputs on two objects that are the
same or differ only in an idle delay line. -/
theorem run_sameUpToIdleDelay {H : Type} (P : BlockProcessing B H)
    (cfft : List float32_t → CArray (IR_FFT_LENGTH * 2)) (F : Float32Ops)
    (sampleRate : float32_t) (calls : List (Call B)) :
    ∀ (hist : H) (s t : AudioFilterIRCabsim_F32 B), SameUpToIdleDelay s t →
      (run P cfft F sampleRate (s, hist) calls).1 = (run P cfft F sampleRate (t, hist) calls).1 := by
  induction calls with
  | nil => intro hist s t _; rfl
  | cons c cs ih =>
    intro hist s t hst
    obtain ⟨h1, h2, h3⟩ := step_sameUpToIdleDelay P cfft F sampleRate hist c s t hst
    have e : ∀ u : AudioFilterIRCabsim_F32 B,
        (step P cfft F sampleRate (u, hist) c).2
          = ((step P cfft F sampleRate (u, hist) c).2.1,
             (step P cfft F sampleRate (u, hist) c).2.2) := fun _ => rfl
    simp only [run]
    rw [h1, e s, e t, h2]
    rw [ih _ _ _ h3]

/-- C3, amended: for every state in which the double-tracker is disabled,
`doubler_set(true)` followed by `doubler_set(false)`, with no block processed
in between, gives a state that produces the same output as if the
double-tracker had never been enabled: every later sequence of calls (blocks
processed by `update`, control calls, queries) returns the same outputs from it
as from the original state. The resulting state is the original state with the
delay line reset and nothing else changed, the flag is disabled again, and it
is the original state itself whenever the delay line was already in its reset
state. -/
theorem enable_disable_same_output {H : Type} (P : BlockProcessing B H)
    (cfft : List float32_t → CArray (IR_FFT_LENGTH * 2)) (F : Float32Ops)
    (sampleRate : float32_t) (hist : H) (calls : List (Call B))
    (self : AudioFilterIRCabsim_F32 B) (h : self.doubleTrack = false) :
    (run P cfft F sampleRate (doubler_set (doubler_set self true) false, hist) calls).1
      = (run P cfft F sampleRate (self, hist) calls).1 ∧
    doubler_set (doubler_set self true) false = { self with delay := self.delay.reset } ∧
    (doubler_get (doubler_set (doubler_set self true) false)).1 = false ∧
    (self.delay.reset = self.delay → doubler_set (doubler_set self true) false = self) := by
  have key : doubler_set (doubler_set self true) false
      = { self with delay := self.delay.reset } := by
    cases self
    simp only at h
    subst h
    rfl
  refine ⟨?_, key, rfl, fun hr => ?_⟩
  · rw [key]
    exact (run_sameUpToIdleDelay P cfft F sampleRate calls hist self _
      (Or.inr ⟨h, self.delay.reset, rfl, reset_reset _⟩)).symm
  · rw [key, hr]

/-- Witness for C3 amended: in `staleObject` the double-tracker is disabled
and the delay line holds a sample, so that enabling then disabling changes the
delay line; the sample sequence of calls, which processes blocks, toggles the
double-tracker on and runs the enhancer on the delay line, returns the same
outputs from the resulting state as from `staleObject`. -/
theorem enable_disable_same_output_witness :
    staleObject.doubleTrack = false ∧
    staleObject.delay.reset ≠ staleObject.delay ∧
    (run swapProcessing zeroTransform exactOps 48000
        (doubler_set (doubler_set staleObject true) false, ()) sampleCalls).1
      = (run swapProcessing zeroTransform exactOps 48000 (staleObject, ()) sampleCalls).1 :=
  ⟨rfl, staleDelay_reset_ne,
    (enable_disable_same_output swapProcessing zeroTransform exactOps 48000 () sampleCalls
      staleObject rfl).1⟩

/-- C10: `doubler_set` and `doubler_tgl` change nothing except the enable flag
and the delay line: the state after the call is the state before it with these
two members replaced, so `ir_get`, `ir_get_len_ms` and `init_done` return the
same values before and after and `nfor`, the IR table and the stored partitions
are the same; the accessors `ir_get`, `ir_get_len_ms`, `doubler_get` and
`init_done` return the state unchanged. -/
theorem control_frame (self : AudioFilterIRCabsim_F32 B) (s : Bool) :
    (doubler_set self s = { self with doubleTrack := (doubler_set self s).doubleTrack,
                                      delay := (doubler_set self s).delay }) ∧
    ((doubler_tgl self).2 = { self with doubleTrack := (doubler_tgl self).2.doubleTrack,
                                        delay := (doubler_tgl self).2.delay }) ∧
    ((ir_get (doubler_set self s)).1 = (ir_get self).1 ∧
     (ir_get_len_ms (doubler_set self s)).1 = (ir_get_len_ms self).1 ∧
     (init_done (doubler_set self s)).1 = (init_done self).1 ∧
     (doubler_set self s).nfor = self.nfor ∧
     (doubler_set self s).irPtrTable = self.irPtrTable ∧
     (doubler_set self s).fmask = self.fmask) ∧
    ((ir_get (doubler_tgl self).2).1 = (ir_get self).1 ∧
     (ir_get_len_ms (doubler_tgl self).2).1 = (ir_get_len_ms self).1 ∧
     (init_done (doubler_tgl self).2).1 = (init_done self).1 ∧
     (doubler_tgl self).2.nfor = self.nfor ∧
     (doubler_tgl self).2.irPtrTable = self.irPtrTable ∧
     (doubler_tgl self).2.fmask = self.fmask) ∧
    ((ir_get self).2 = self ∧ (ir_get_len_ms self).2 = self ∧
     (doubler_get self).2 = self ∧ (init_done self).2 = self) := by
  refine ⟨?_, ?_, ?_, ?_, ⟨rfl, rfl, rfl, rfl⟩⟩
  · cases s <;> rfl
  · cases h : self.doubleTrack <;> simp [doubler_tgl, h]
  · cases s <;> exact ⟨rfl, rfl, rfl, rfl, rfl, rfl⟩
  · cases h : self.doubleTrack <;> simp [doubler_tgl, ir_get, ir_get_len_ms, init_done, h]

/-! ## Loading and registering impulse responses -/

/-- C4: `ir_get_len_ms()` returns the cached `ir_length_ms`; in the freshly
constructed object, before any load, it is 0; after `ir_load` of any in-range
slot that holds an impulse response it is `(irSampleCount / sampleRate) × 1000`
as the single-precision arithmetic of the target computes it, whatever the
other slots hold; after `ir_load` of any in-range slot that holds the bypass
entry (`NULL`) it is 0. -/
theorem ir_get_len_ms_accuracy (cfft : List float32_t → CArray (IR_FFT_LENGTH * 2))
    (F : Float32Ops) (sampleRate : float32_t) (self : AudioFilterIRCabsim_F32 B)
    (irs : CabsimIRs) (fmask0 : Fin IR_NFORMAX → CArray (IR_FFT_LENGTH * 2))
    (ac20 : CArray 512) (accum0 fftin0 : CArray (IR_FFT_LENGTH * 2))
    (delay_l : Nat) (FIRstate0 : Fin 4 → CArray (B + nfir)) :
    (ir_get_len_ms self).1 = self.ir_length_ms ∧
    (ir_get_len_ms (construct B irs fmask0 ac20 accum0 fftin0 delay_l FIRstate0)).1 = 0 ∧
    (∀ (idx : uint8_t) (h : idx.val < IR_MAX_REG_NUM) (ir : ImpulseResponse),
      self.irPtrTable ⟨idx.val, h⟩ = some ir →
      (ir_get_len_ms (ir_load cfft F sampleRate self idx)).1
        = F.mul (F.div (F.ofUInt ir.length) sampleRate) 1000) ∧
    (∀ (idx : uint8_t) (h : idx.val < IR_MAX_REG_NUM),
      self.irPtrTable ⟨idx.val, h⟩ = none →
      (ir_get_len_ms (ir_load cfft F sampleRate self idx)).1 = 0) := by
  refine ⟨rfl, rfl, ?_, ?_⟩
  · intro idx h ir hvalid
    simp only [ir_get_len_ms, ir_load, dif_pos h]
    split
    · next hn => rw [hvalid] at hn; cases hn
    · next ir2 hs => rw [hvalid] at hs; cases hs; rfl
  · intro idx h hbypass
    simp only [ir_get_len_ms, ir_load, dif_pos h]
    split
    · rfl
    · next ir2 hs => rw [hbypass] at hs; cases hs

/-- Witness for C4: the freshly constructed object reports 0; after loading
its bypass slot 10 it reports 0; and once the 375-sample impulse response has
been registered in slot 10, so that the table holds no bypass entry at all,
loading slot 10 at 48000 Hz reports 7.8125 ms. -/
theorem ir_get_len_ms_accuracy_witness :
    (ir_get_len_ms freshObject).1 = 0 ∧
    (ir_get_len_ms (ir_load zeroTransform exactOps 48000 freshObject 10)).1 = 0 ∧
    (∀ j, fullTableObject.irPtrTable j ≠ none) ∧
    (ir_get_len_ms (ir_load zeroTransform exactOps 48000 fullTableObject 10)).1 = 7.8125 := by
  have h10 : (10 : uint8_t).val < IR_MAX_REG_NUM := by decide
  have w := ir_get_len_ms_accuracy zeroTransform exactOps 48000 freshObject unitIRs
    (fun _ => CArray.zero _) (CArray.zero _) (CArray.zero _) (CArray.zero _) 4
    (fun _ => CArray.zero _)
  have v := ir_get_len_ms_accuracy zeroTransform exactOps 48000 fullTableObject unitIRs
    (fun _ => CArray.zero _) (CArray.zero _) (CArray.zero _) (CArray.zero _) 4
    (fun _ => CArray.zero _)
  refine ⟨w.2.1, w.2.2.2 10 h10 rfl, ?_, ?_⟩
  · have e : fullTableObject.irPtrTable
        = Function.update (defaultIrPtrTable unitIRs) ⟨10, by decide⟩ (some ir375) := rfl
    intro j
    rw [e]
    by_cases hj : j = ⟨10, by decide⟩
    · rw [hj, Function.update_same]; exact Option.some_ne_none _
    · rw [Function.update_noteq hj]
      revert hj
      fin_cases j <;> intro hj <;> first | exact Option.some_ne_none _ | exact absurd rfl hj
  · have e : fullTableObject.irPtrTable
        = Function.update (defaultIrPtrTable unitIRs) ⟨10, by decide⟩ (some ir375) := rfl
    have hs : fullTableObject.irPtrTable ⟨(10 : uint8_t).val, h10⟩ = some ir375 := by
      rw [e]; exact Function.update_same _ _ _
    have hl : ir375.length = 375 := by
      simp only [ir375, List.length_cons, List.length_replicate]
    rw [v.2.2.1 10 h10 ir375 hs, hl]
    show ((375 : ℕ) : ℚ) / 48000 * 1000 = 7.8125
    norm_num

/-- C5: an out-of-range `position` makes `ir_register` a no-op (the object,
and with it every entry of the IR table, is unchanged); an out-of-range `idx`
makes `ir_load` a no-op (the object, and with it the index reported by
`ir_get()`, the cached length and the stored partitions, is unchanged); an
in-range position `q` makes `ir_register` store `irPtr` in entry `q` and leave
every other entry, and every other member, as it was. -/
theorem invalid_slot_index (cfft : List float32_t → CArray (IR_FFT_LENGTH * 2))
    (F : Float32Ops) (sampleRate : float32_t) (self : AudioFilterIRCabsim_F32 B)
    (irPtr : Option ImpulseResponse) (position idx q : uint8_t)
    (hp : IR_MAX_REG_NUM ≤ position.val) (hi : IR_MAX_REG_NUM ≤ idx.val)
    (hq : q.val < IR_MAX_REG_NUM) :
    ir_register self irPtr position = self ∧
    (∀ j, (ir_register self irPtr position).irPtrTable j = self.irPtrTable j) ∧
    ir_load cfft F sampleRate self idx = self ∧
    (ir_get (ir_load cfft F sampleRate self idx)).1 = (ir_get self).1 ∧
    (ir_get_len_ms (ir_load cfft F sampleRate self idx)).1 = (ir_get_len_ms self).1 ∧
    (ir_load cfft F sampleRate self idx).fmask = self.fmask ∧
    (ir_load cfft F sampleRate self idx).nfor = self.nfor ∧
    (ir_register self irPtr q).irPtrTable ⟨q.val, hq⟩ = irPtr ∧
    (∀ j, j ≠ ⟨q.val, hq⟩ → (ir_register self irPtr q).irPtrTable j = self.irPtrTable j) ∧
    ir_register self irPtr q
      = { self with irPtrTable := (ir_register self irPtr q).irPtrTable } := by
  have e1 : ir_register self irPtr position = self := by
    simp [ir_register, Nat.not_lt.mpr hp]
  have e2 : ir_load cfft F sampleRate self idx = self := by
    simp [ir_load, Nat.not_lt.mpr hi]
  refine ⟨e1, fun j => by rw [e1], e2, by rw [e2], by rw [e2], by rw [e2], by rw [e2], ?_, ?_, ?_⟩
  · simp [ir_register, hq]
  · intro j hj
    simp [ir_register, hq, Function.update_noteq hj]
  · simp [ir_register, hq]

/-- Witness for C5: on the freshly constructed object, registering at
position 11 and loading index 200 change nothing, and registering the bypass
entry at position 3 stores it there. -/
theorem invalid_slot_index_witness :
    ir_register freshObject (some [1, 2]) 11 = freshObject ∧
    ir_load zeroTransform exactOps 44100 freshObject 200 = freshObject ∧
    (ir_register freshObject none 3).irPtrTable ⟨3, by decide⟩ = none :=
  have w := invalid_slot_index zeroTransform exactOps 44100 freshObject (some [1, 2]) 11 200 3
    (by decide) (by decide) (by decide)
  have v := invalid_slot_index zeroTransform exactOps 44100 freshObject none 11 200 3
    (by decide) (by decide) (by decide)
  ⟨w.1, w.2.2.1, v.2.2.2.2.2.2.2.1⟩

/-! ## Declared buffer sizes -/

/-- C7, the claim as stated fails: with `AUDIO_BLOCK_SAMPLES = 128` a row of
`FIRstate` has 158 elements, not `blockSize + taps - 1 = 157`. -/
theorem FIRstate_length_not_157 :
    nfir = 30 ∧ (freshObject.FIRstate 0).size = 158 ∧
    (freshObject.FIRstate 0).size ≠ 128 + nfir - 1 := by
  refine ⟨rfl, (freshObject.FIRstate 0).size_eq, ?_⟩
  rw [CArray.size, (freshObject.FIRstate 0).size_eq]
  decide

/-- C7, amended: each of the four rows of `FIRstate` has exactly
`AUDIO_BLOCK_SAMPLES + nfir` elements with `nfir = 30`, which is one more than
`blockSize + taps - 1`; for a 128-sample block that is 158. -/
theorem FIRstate_length (self : AudioFilterIRCabsim_F32 B) (i : Fin 4)
    (t : AudioFilterIRCabsim_F32 128) :
    nfir = 30 ∧
    (List.ofFn self.FIRstate).length = 4 ∧
    (self.FIRstate i).size = B + nfir ∧
    (self.FIRstate i).size = (B + nfir - 1) + 1 ∧
    (t.FIRstate i).size = 158 :=
  ⟨rfl, List.length_ofFn _, (self.FIRstate i).size_eq, (self.FIRstate i).size_eq,
    (t.FIRstate i).size_eq⟩

/-- C8: the partition store has `IR_NFORMAX = 2048 / IR_BUFFER_SIZE = 16`
rows, so it holds at most 16 partitions; the transform length is
`IR_FFT_LENGTH = 2 × IR_BUFFER_SIZE = 256`; each stored partition, and the
accumulator, is a complex-interleaved buffer of `IR_FFT_LENGTH = 2 × blockSize
= 256` complex values, stored as `2 × IR_FFT_LENGTH = 512` samples (re, im
pairs). -/
theorem partition_store_sizes (self : AudioFilterIRCabsim_F32 B) (i : Fin IR_NFORMAX) :
    IR_BUFFER_SIZE = 128 ∧
    IR_NFORMAX = 2048 / IR_BUFFER_SIZE ∧ IR_NFORMAX = 16 ∧
    (List.ofFn self.fmask).length = IR_NFORMAX ∧
    IR_FFT_LENGTH = 2 * IR_BUFFER_SIZE ∧ IR_FFT_LENGTH = 256 ∧
    (self.fmask i).size = 2 * IR_FFT_LENGTH ∧ (self.fmask i).size = 512 ∧
    (self.fmask i).size / 2 = IR_FFT_LENGTH ∧
    self.accum.size = 2 * IR_FFT_LENGTH ∧ self.accum.size = 512 ∧
    self.accum.size / 2 = IR_FFT_LENGTH := by
  have hm : (self.fmask i).size = 512 := (self.fmask i).size_eq
  have ha : self.accum.size = 512 := self.accum.size_eq
  refine ⟨rfl, rfl, rfl, List.length_ofFn _, rfl, rfl, ?_, hm, ?_, ?_, ha, ?_⟩
  · rw [hm]; rfl
  · rw [hm]; rfl
  · rw [ha]; rfl
  · rw [ha]; rfl

/-! ## The decorrelation filters -/

/-- The leading coefficients of the four filters are pairwise more than
`1/20000` apart, far more than single-precision rounding of the literals can
move them, so the four tables stay distinct after rounding. -/
theorem FIRk_heads_separated :
    FIRk_preL.head? = some 0.000894872763 ∧ FIRk_preR.head? = some 0.00020902598 ∧
    FIRk_postL.head? = some 0.000285242248 ∧ FIRk_postR.head? = some 0.000503875781 ∧
    (0.00020902598 : ℚ) + 1/20000 < 0.000285242248 ∧
    (0.000285242248 : ℚ) + 1/20000 < 0.000503875781 ∧
    (0.000503875781 : ℚ) + 1/20000 < 0.000894872763 := by
  refine ⟨rfl, rfl, rfl, rfl, ?_, ?_, ?_⟩ <;> norm_num

/-- C9: each of `FIRk_preL`, `FIRk_preR`, `FIRk_postL`, `FIRk_postR` has
exactly `nfir = 30` coefficients; the four coefficient sequences are pairwise
distinct (in particular the two pre filters differ and the two post filters
differ); and in the order preL, preR, postL, postR each one is the previous
one shifted left by one tap: `next[i] = prev[i+1]` for every `i` in `0..28`. -/
theorem FIRk_tables :
    nfir = 30 ∧
    (FIRk_preL.length = nfir ∧ FIRk_preR.length = nfir ∧
     FIRk_postL.length = nfir ∧ FIRk_postR.length = nfir) ∧
    (FIRk_preL ≠ FIRk_preR ∧ FIRk_postL ≠ FIRk_postR ∧ FIRk_preL ≠ FIRk_postL ∧
     FIRk_preL ≠ FIRk_postR ∧ FIRk_preR ≠ FIRk_postL ∧ FIRk_preR ≠ FIRk_postR) ∧
    (∀ i, i < 29 → FIRk_preR[i]? = FIRk_preL[i + 1]? ∧ FIRk_preR[i]? ≠ none) ∧
    (∀ i, i < 29 → FIRk_postL[i]? = FIRk_preR[i + 1]? ∧ FIRk_postL[i]? ≠ none) ∧
    (∀ i, i < 29 → FIRk_postR[i]? = FIRk_postL[i + 1]? ∧ FIRk_postR[i]? ≠ none) := by
  have ne_of_head : ∀ (a b : List float32_t), a.head? ≠ b.head? → a ≠ b :=
    fun a b h e => h (congrArg List.head? e)
  refine ⟨rfl, ⟨rfl, rfl, rfl, rfl⟩, ⟨?_, ?_, ?_, ?_, ?_, ?_⟩, ?_, ?_, ?_⟩
  · apply ne_of_head; simp [FIRk_preL, FIRk_preR]; norm_num
  · apply ne_of_head; simp [FIRk_postL, FIRk_postR]; norm_num
  · apply ne_of_head; simp [FIRk_preL, FIRk_postL]; norm_num
  · apply ne_of_head; simp [FIRk_preL, FIRk_postR]; norm_num
  · apply ne_of_head; simp [FIRk_preR, FIRk_postL]; norm_num
  · apply ne_of_head; simp [FIRk_preR, FIRk_postR]; norm_num
  · intro i hi
    interval_cases i <;> exact ⟨rfl, by simp [FIRk_preR]⟩
  · intro i hi
    interval_cases i <;> exact ⟨rfl, by simp [FIRk_postL]⟩
  · intro i hi
    interval_cases i <;> exact ⟨rfl, by simp [FIRk_postR]⟩

end CabSim
